/-
Verification of the personal-assistant orchestration engine.

Shallow embedding of the Python sources:
  * agent/agents/master.py          (history cap, supervisor tool loop)
  * agent/agents/mail_agent.py      (leaf sub-agent tool loop)
  * agent/agents/router_agent.py    (category classification)
  * agent/agents/query_rewriter.py  (standalone-query rewriting)
  * agent/mcp_servers/orchestrator.py (connection pool, tool invocation)
  * agent/eval_queue/{publisher,consumer,gemini_evaluator}.py (eval pipeline)
  * agent/schema/init_assistant_graph.py (branch dispatch)

Python `dict` values that cross these functions are modelled by a small JSON
value type `Jv`; Python dictionaries become association lists; functions that
may raise become `Except`-valued functions; the language-model backend and
the network are inputs (oracles) to the embedded functions.
-/
import Mathlib

namespace Assistant

/-- JSON-like values exchanged between the components (Python dict/list/str/
int/bool/None).  Scores 1.0 / 0.0 are represented exactly by `num 1` /
`num 0`. -/
inductive Jv : Type where
  | str  : String → Jv
  | num  : Int → Jv
  | bool : Bool → Jv
  | null : Jv
  | arr  : List Jv → Jv
  | obj  : List (String × Jv) → Jv
deriving Repr

/-- Python `str.strip()` (for the ASCII whitespace the agents exchange):
drop leading and trailing whitespace. -/
def pyStrip (s : String) : String :=
  String.mk (((s.data.dropWhile Char.isWhitespace).reverse.dropWhile
    Char.isWhitespace).reverse)

/-- Python `str.lower()` (ASCII). -/
def pyLower (s : String) : String :=
  String.mk (s.data.map Char.toLower)

/-- One conversation turn, `agent/states/assistant_state.py::Message` plus the
optional keys that `handle_master` bolts on after appending
(`function_call`, `tool_call_id`, `structured_response`). -/
structure Message where
  role : String
  content : String
  name : Option String := none
  function_call : Option (String × Jv) := none
  tool_call_id : Option String := none
  structured_response : Option Jv := none
deriving Repr

/-- Embeds `agent/states/assistant_state.py::AssistantState`. `category_to_be_served`
is optional because the graph reads it with `state.get(...)` which yields
`None` before the router has run. -/
structure AssistantState where
  category_to_be_served : Option String := none
  query_to_be_served : String := ""
  history : List Message := []
  response : String := ""
deriving Repr

/-- Python's `l[-n:]`: the suffix of the last `n` elements. -/
def lastN (n : Nat) (l : List α) : List α := l.drop (l.length - n)

/-- Embeds `master.py::push_history`: append one message, then cap the history to the
last 40 entries when it exceeds 40. -/
def push_history (state : AssistantState) (role : String) (content : String)
    (name : Option String := none) : AssistantState :=
  let history := state.history ++ [{ role := role, content := content, name := name }]
  let history := if history.length > 40 then lastN 40 history else history
  { state with history := history }

/-- One append request: the `(role, content, name)` arguments of a
`push_history` call. -/
abbrev Append := String × String × Option String

/-- The `Message` that `push_history` constructs from its arguments. -/
def mkMsg (a : Append) : Message :=
  { role := a.1, content := a.2.1, name := a.2.2 }

/-- A sequence of `push_history` calls. -/
def pushAll (s : AssistantState) (appends : List Append) : AssistantState :=
  appends.foldl (fun st a => push_history st a.1 a.2.1 a.2.2) s

/-! ## Router (`agent/agents/router_agent.py`) and rewriter
(`agent/agents/query_rewriter.py`)

`generate_json` (`agent/clients/ollama_client.py`) returns `Optional[Dict]`:
`None` when the model text contains no parseable JSON object, otherwise the
parsed dictionary.  That outcome is the input of the embedded functions. -/

/-- Modelled from the spec: `agent/constants.py` (imported as
`from agent.constants import CATEGORIES`) is not under `src/`; §6 of the spec
fixes the closed category set as at minimum `mail`, `calendar`,
`expense_tracker`/`expense`, `drive`, `resume_preparation`, plus the sentinel
`none`. -/
def CATEGORIES : List String :=
  ["mail", "calendar", "expense_tracker", "expense", "drive", "resume_preparation", "none"]

/-- Embeds `router_agent.py::route_category`: `if result and "category" in result:
return result["category"]` (a Python empty dict is falsy), else `"none"`. -/
def route_category (genResult : Option (List (String × Jv))) : Jv :=
  match genResult with
  | none => Jv.str "none"
  | some result =>
    if result.isEmpty = false && (result.lookup "category").isSome then
      (result.lookup "category").getD (Jv.str "none")
    else
      Jv.str "none"

/-- Embeds `query_rewriter.py::rewrite_query`: use `result["rewritten_query"]`
stripped when it is a non-blank string, otherwise fall back to the stripped
original query.  Total: no input raises. -/
def rewrite_query (user_query : String) (genResult : Option (List (String × Jv))) : String :=
  match genResult with
  | some result =>
    match result.lookup "rewritten_query" with
    | some (Jv.str rewritten) =>
      if pyStrip rewritten ≠ "" then pyStrip rewritten else pyStrip user_query
    | _ => pyStrip user_query
  | none => pyStrip user_query

/-! ## Branch dispatch (`agent/schema/init_assistant_graph.py`) -/

/-- The fixed rejection message set by
`init_assistant_graph.py::no_category_handler`. -/
def NO_CATEGORY_RESPONSE : String :=
  "I'm sorry, I am not capable of handling this request.\nI can handle the following categories:\n- Mails\n- Calendar\n- Expense Tracker\n- Resume Preparation\n"

/-- Embeds `init_assistant_graph.py::_route_decider`: normalize the routed category
with `strip().lower()` and pick the branch key. -/
def route_decider (state : AssistantState) : String :=
  let category := pyLower (pyStrip (state.category_to_be_served.getD ""))
  if category ∈ ["mail", "calendar", "drive", "expense_tracker"] then "master"
  else if category ∈ ["resume_preparation", "resume_prep", "resume"] then "resume"
  else "none"

/-- Embeds `init_assistant_graph.py::no_category_handler`. -/
def no_category_handler (state : AssistantState) : AssistantState :=
  { state with response := NO_CATEGORY_RESPONSE }

/-- The three nodes reachable from the router's conditional edges. -/
inductive GraphNode : Type where
  | master : GraphNode
  | resume : GraphNode
  | noneHandler : GraphNode
deriving Repr, DecidableEq

/-- Embeds `build_graph`'s conditional-edge mapping
`{'master': 'master', 'resume': 'resume', 'none': 'none'}` applied to the
decider's output (the decider only ever returns those three keys). -/
def dispatch_node (state : AssistantState) : GraphNode :=
  match route_decider state with
  | "master" => GraphNode.master
  | "resume" => GraphNode.resume
  | _ => GraphNode.noneHandler

/-! ## Python's `json.dumps` (standard library, used by the agents to
serialize error results and parsed tool output) -/

/-- JSON string escaping as `json.dumps` performs it for the ASCII,
non-control characters the agents exchange. -/
def jsonEscapeChars : List Char → List Char
  | [] => []
  | c :: cs =>
    (if c = '\\' then ['\\', '\\'] else if c = '"' then ['\\', '"'] else [c]) ++
      jsonEscapeChars cs

/-- JSON string escaping on `String`. -/
def jsonEscape (s : String) : String :=
  String.mk (jsonEscapeChars s.data)

mutual

/-- Models `json.dumps` with its default separators `", "` and `": "`. -/
def dumps : Jv → String
  | Jv.str s => "\"" ++ jsonEscape s ++ "\""
  | Jv.num n => toString n
  | Jv.bool b => if b then "true" else "false"
  | Jv.null => "null"
  | Jv.arr xs => "[" ++ dumpsList xs ++ "]"
  | Jv.obj kvs => "\x7b" ++ dumpsObj kvs ++ "\x7d"

def dumpsList : List Jv → String
  | [] => ""
  | [x] => dumps x
  | x :: y :: rest => dumps x ++ ", " ++ dumpsList (y :: rest)

def dumpsObj : List (String × Jv) → String
  | [] => ""
  | [(k, v)] => "\"" ++ jsonEscape k ++ "\": " ++ dumps v
  | (k, v) :: kv :: rest =>
    "\"" ++ jsonEscape k ++ "\": " ++ dumps v ++ ", " ++ dumpsObj (kv :: rest)

end

/-! ## Connection pool (`agent/mcp_servers/orchestrator.py`) -/

/-- Constructor arguments of `MCPOrchestrator.__init__` with their default
URLs. -/
structure MCPConfig where
  mail_url : String := "http://127.0.0.1:6281/mcp"
  calendar_url : String := "http://127.0.0.1:6282/mcp"
  expense_tracker_url : String := "http://127.0.0.1:6280/mcp"
deriving Repr

/-- Outcome of contacting one MCP server: entering the client's async context
(`enter_async_context`) and the subsequent `list_tools` probe.  An `Except`
error carries the exception text. -/
structure ServerOutcome where
  connect : Except String Unit
  listTools : Except String Nat
deriving Repr

/-- The configured servers in the order `__aenter__` contacts them:
dictionary key, display name used in error messages, URL. -/
def configuredServers (cfg : MCPConfig) : List (String × String × String) :=
  [("mail", "Mail", cfg.mail_url),
   ("calendar", "Calendar", cfg.calendar_url),
   ("expense_tracker", "Expense Tracker", cfg.expense_tracker_url)]

/-- The error message appended for a failed server (connect or `list_tools`
raised). -/
def serverErrorMsg (display url exc : String) : String :=
  "❌ Failed to connect to " ++ display ++ " MCP at " ++ url ++ ": " ++ exc

/-- The record of one `__aenter__` attempt. -/
structure PoolAttempt where
  /-- keys added to `self._clients` -/
  clients : List String
  /-- client contexts entered on the `AsyncExitStack` (still open) -/
  opened : List String
  /-- collected per-server error messages -/
  errors : List String
  /-- Either `ok` with the connected client keys, or the `RuntimeError` message -/
  result : Except String (List String)
  /-- whether `self._stack.aclose()` ran before `__aenter__` returned/raised -/
  stack_closed : Bool
deriving Repr

/-- One server's try-block inside `__aenter__`: on connect success the client
enters the stack and joins `_clients`; a failure of connect or of
`list_tools` appends one error message (the client stays in the stack and in
`_clients` when only `list_tools` failed). -/
def tryConnectServer (net : String → ServerOutcome)
    (acc : List String × List String × List String)
    (server : String × String × String) :
    List String × List String × List String :=
  let (clients, opened, errors) := acc
  let (key, display, url) := server
  match (net key).connect with
  | Except.error e => (clients, opened, errors ++ [serverErrorMsg display url e])
  | Except.ok _ =>
    match (net key).listTools with
    | Except.ok _ => (clients ++ [key], opened ++ [key], errors)
    | Except.error e =>
      (clients ++ [key], opened ++ [key], errors ++ [serverErrorMsg display url e])

/-- Embeds `MCPOrchestrator.__aenter__`: contact every configured server in order,
collect failures, and raise one `RuntimeError` if any failed.  The raise
happens without closing the exit stack. -/
def aenter (cfg : MCPConfig) (net : String → ServerOutcome) : PoolAttempt :=
  let (clients, opened, errors) :=
    (configuredServers cfg).foldl (tryConnectServer net) ([], [], [])
  { clients := clients
    opened := opened
    errors := errors
    result :=
      if errors.isEmpty then Except.ok clients
      else Except.error ("Failed to connect to " ++ toString errors.length ++
        " MCP server(s). All servers must be running.")
    stack_closed := false }

/-- Embeds `MCPOrchestrator.__aexit__`: close the exit stack.  Python only calls it
when `__aenter__` returned normally. -/
def aexit (attempt : PoolAttempt) : PoolAttempt :=
  { attempt with stack_closed := true }

/-- Helper rendering `Except.isOk` as a plain Boolean. -/
def exceptOk : Except ε α → Bool
  | Except.ok _ => true
  | Except.error _ => false

/-- Whether a server's try-block fails (its connect or `list_tools` raised). -/
def serverFails (net : String → ServerOutcome) (key : String) : Bool :=
  !(exceptOk (net key).connect && exceptOk (net key).listTools)

/-- The error message a failing server contributes, `none` for a healthy
server. -/
def serverErrorOf (net : String → ServerOutcome) (server : String × String × String) :
    Option String :=
  let (key, display, url) := server
  match (net key).connect with
  | Except.error e => some (serverErrorMsg display url e)
  | Except.ok _ =>
    match (net key).listTools with
    | Except.ok _ => none
    | Except.error e => some (serverErrorMsg display url e)

/-- The servers whose client context was successfully entered (they joined
`_clients` and the exit stack), in connection order. -/
def connectedOf (net : String → ServerOutcome)
    (servers : List (String × String × String)) : List String :=
  servers.filterMap (fun s =>
    match (net s.1).connect with
    | Except.ok _ => some s.1
    | Except.error _ => none)

/-- The error messages collected across all configured servers, in
connection order. -/
def collectedErrors (net : String → ServerOutcome)
    (servers : List (String × String × String)) : List String :=
  servers.filterMap (serverErrorOf net)

/-! ## Remote tool invocation -/

/-- One item of a `CallToolResult.content` list: either a text item (has a
`.text` attribute) or a non-text item, carrying its `model_dump()` and
`str()` views. -/
inductive ContentItem : Type where
  | textItem (text : String)
  | otherItem (dump : Jv) (reprStr : String)
deriving Repr

/-- The envelope `client.call_tool` returns: the content list plus the
`model_dump()` / `str()` views of the whole result used by the fallbacks. -/
structure CallToolResult where
  content : List ContentItem
  resultDump : Jv := Jv.null
  reprStr : String := ""
deriving Repr

/-- Embeds `MCPOrchestrator.call_tool` (lines 196-234), given the remote result
envelope.  `loads` models Python's `json.loads`: `some v` when the text
parses as JSON, `none` when `json.loads` raises.  A parsed text item is
returned as the parsed value; unparseable text is returned as the raw
string. -/
def call_tool (loads : String → Option Jv) (result : CallToolResult) : Jv :=
  match result.content with
  | item :: _ =>
    match item with
    | ContentItem.textItem text =>
      match loads text with
      | some v => v
      | none => Jv.str text
    | ContentItem.otherItem dump _ => dump
  | [] => result.resultDump

/-- The mail agent's in-loop extraction of a tool result
(`mail_agent.py` lines 164-176): a text item that parses as JSON is
re-serialized with `json.dumps` before joining the transcript; unparseable
text is kept raw; a non-text item is `str()`-ed; an empty envelope is
`str()`-ed. -/
def mailExtractContent (loads : String → Option Jv) (result : CallToolResult) : String :=
  match result.content with
  | item :: _ =>
    match item with
    | ContentItem.textItem text =>
      match loads text with
      | some v => dumps v
      | none => text
    | ContentItem.otherItem _ reprStr => reprStr
  | [] => result.reprStr

/-! ## Eval pipeline (`agent/eval_queue/`) -/

/-- A Python exception reaching `GeminiEvaluator.evaluate`'s handlers:
`json.JSONDecodeError` is caught separately from everything else. -/
inductive PyExc : Type where
  | jsonDecode (msg : String)
  | otherExc (msg : String)
deriving Repr

/-- Python dict assignment `d[k] = v` on an association list: replace the
first binding of `k` in place, or append a new binding. -/
def setKey : List (String × Jv) → String → Jv → List (String × Jv)
  | [], k, v => [(k, v)]
  | (k', v') :: rest, k, v =>
    if k' == k then (k', v) :: rest else (k', v') :: setKey rest k v

/-- Models `" ".join(xs)` / `"\n".join(xs)`: succeeds only when every element is a
string (otherwise Python raises `TypeError`). -/
def joinStrs (sep : String) : List Jv → Option String
  | [] => some ""
  | [Jv.str s] => some s
  | Jv.str s :: y :: rest =>
    (joinStrs sep (y :: rest)).map (fun r => s ++ sep ++ r)
  | _ => none

/-- The list-to-string normalization `evaluate` applies to `justification`
and `improvements`; a list with non-string members makes `join` raise. -/
def normalizeListField (kvs : List (String × Jv)) (k sep : String) :
    Except String (List (String × Jv)) :=
  match kvs.lookup k with
  | some (Jv.arr xs) =>
    match joinStrs sep xs with
    | some s => Except.ok (setKey kvs k (Jv.str s))
    | none => Except.error "sequence item 0: expected str instance"
  | _ => Except.ok kvs

/-- Python `evaluation["status"] == "pass"`: true exactly for the string
`"pass"`. -/
def statusIsPass : Jv → Bool
  | Jv.str s => s == "pass"
  | _ => false

/-- Python `evaluation["status"] == "error"`: true exactly for the string
`"error"`. -/
def statusIsError : Jv → Bool
  | Jv.str s => s == "error"
  | _ => false

/-- Python `x == "none"`: true exactly for the string `"none"`. -/
def isNoneSentinel : Jv → Bool
  | Jv.str s => s == "none"
  | _ => false

/-- The fallback dict `evaluate` returns from its `except Exception`
handler. -/
def evalErrorDict (excText : String) : List (String × Jv) :=
  [("status", Jv.str "error"),
   ("justification", Jv.str ("Evaluation failed: " ++ excText)),
   ("improvements", Jv.str "Could not evaluate due to error"),
   ("score", Jv.num 0)]

/-- Embeds `GeminiEvaluator.evaluate`: the Gemini call, markdown stripping and
`json.loads` are the model-backend boundary; their combined outcome is the
input.  `.ok v` is the parsed JSON value, `.error` a raised exception.
A missing `"status"` key (`KeyError`) and a non-dict value
(`AttributeError` on `.get`) fall into the generic handler.  The score is
`1.0` for status `"pass"` and `0.0` otherwise (`Jv.num 1` / `Jv.num 0`). -/
def evaluate (parsed : Except PyExc Jv) : List (String × Jv) :=
  match parsed with
  | Except.error (PyExc.jsonDecode msg) =>
    [("status", Jv.str "error"),
     ("justification", Jv.str ("Failed to parse evaluation: " ++ msg)),
     ("improvements", Jv.str "Could not generate improvements due to parsing error"),
     ("score", Jv.num 0)]
  | Except.error (PyExc.otherExc msg) => evalErrorDict msg
  | Except.ok (Jv.obj kvs) =>
    match normalizeListField kvs "justification" " " with
    | Except.error e => evalErrorDict e
    | Except.ok kvs =>
      match normalizeListField kvs "improvements" "\n" with
      | Except.error e => evalErrorDict e
      | Except.ok kvs =>
        match kvs.lookup "status" with
        | none => evalErrorDict "'status'"
        | some st => setKey kvs "score" (if statusIsPass st then Jv.num 1 else Jv.num 0)
  | Except.ok _ => evalErrorDict "object has no attribute 'get'"

/-- Payload of `publisher.py::publish_eval_event` (the JSON dict pushed
onto the Redis queue and read back by the consumer). -/
structure EvalEvent where
  agent_name : String
  query : String
  response : String
  category : String
  metadata : List (String × Jv)
  timestamp : String
deriving Repr

/-- Embeds `publish_eval_event(agent_name, query, response, category, metadata)`:
build the event dict (queries/responses already strings here). -/
def publish_eval_event (agent_name query response category : String)
    (metadata : List (String × Jv)) (timestamp : String) : EvalEvent :=
  { agent_name := agent_name, query := query, response := response,
    category := category, metadata := metadata, timestamp := timestamp }

/-- The record `consumer.py::process_eval_event` POSTs to the eval server
(`EvalResultCreate` shape). -/
structure EvalResult where
  test_name : String
  category : String
  status : Jv
  score : Jv
  execution_time_ms : Int
  user_input : String
  agent_output : String
  justification : Jv
  improvements : Jv
  error_message : Option Jv
  metadata : List (String × Jv)
deriving Repr

/-- Models the dict merge of agent_name with metadata: later entries override. -/
def mergedMetadata (agent_name : String) (metadata : List (String × Jv)) :
    List (String × Jv) :=
  metadata.foldl (fun acc kv => setKey acc kv.1 kv.2)
    [("agent_name", Jv.str agent_name)]

/-- Embeds `consumer.py::process_eval_event`: evaluate, then assemble the
`eval_result` dict.  `now` is `int(time.time())` and `execTime` the measured
duration.  A `KeyError` while reading the evaluation dict is caught by the
surrounding handler and no result is produced (`none`). -/
def process_eval_event (event : EvalEvent) (parsed : Except PyExc Jv)
    (now execTime : Int) : Option EvalResult :=
  let evaluation := evaluate parsed
  match evaluation.lookup "status", evaluation.lookup "score",
        evaluation.lookup "justification", evaluation.lookup "improvements" with
  | some st, some sc, some just, some impr =>
    some { test_name := event.agent_name ++ "_" ++ event.category ++ "_" ++ toString now
           category := event.category
           status := st
           score := sc
           execution_time_ms := execTime
           user_input := event.query
           agent_output := event.response
           justification := just
           improvements := impr
           error_message := if statusIsError st then some just else none
           metadata := mergedMetadata event.agent_name event.metadata }
  | _, _, _, _ => none

/-! ## Tool-invocation loops (`agent/agents/master.py::handle_master`,
`agent/agents/mail_agent.py::execute_mail_agent`)

The LangChain model is the oracle `model : List LMsg → ModelResponse`; each
`ainvoke` consumes the current transcript.  Both loops are embedded with
explicit fuel equal to `MAX_ITERATIONS` and additionally report how many
model invocations they performed. -/

/-- A tool-call request returned by the model (`name`, `args`, `id`). -/
structure ToolCall where
  name : String
  args : Jv
  id : String
deriving Repr

/-- What one `ainvoke` returns: free text and the requested tool calls. -/
structure ModelResponse where
  content : String
  tool_calls : List ToolCall
deriving Repr

/-- A LangChain transcript message (System/Human/AI/Tool). -/
inductive LMsg : Type where
  | system (content : String)
  | human (content : String)
  | ai (content : String) (tool_calls : List ToolCall)
  | tool (content : String) (tool_call_id : String) (name : String)
deriving Repr

/-- Mutate the last history entry in place (`state["history"][-1][...] = ...`),
guarded by `if state["history"]:`. -/
def mutateLastHistory (s : AssistantState) (f : Message → Message) : AssistantState :=
  match s.history.getLast? with
  | some last => { s with history := s.history.dropLast ++ [f last] }
  | none => s

/-- Models `json.loads(result_content)` with the `except` fallback
`{"content": result_content}` used for `structured_response`. -/
def structuredResponseOf (loads : String → Option Jv) (content : String) : Jv :=
  match loads content with
  | some v => v
  | none => Jv.obj [("content", Jv.str content)]

/-- The supervisor's per-tool-call body (`handle_master` lines 179-234):
record the delegation in history, resolve the sub-agent tool by exact name
in `SUB_AGENT_TOOLS`, run it (an exception becomes an error-shaped result,
an unknown name becomes `{"error": "Unknown tool: <name>"}`), append the
`ToolMessage`, and record the result in history. -/
def execSubAgentToolCall (loads : String → Option Jv)
    (tools : List (String × (Jv → Except String String)))
    (st : AssistantState) (tc : ToolCall) : AssistantState × LMsg :=
  let st := push_history st "assistant" ("Delegating to " ++ tc.name)
  let st := mutateLastHistory st (fun m =>
    { m with function_call := some (tc.name, tc.args), tool_call_id := some tc.id })
  let result_content :=
    match tools.lookup tc.name with
    | some f =>
      match f tc.args with
      | Except.ok r => r
      | Except.error e => dumps (Jv.obj [("error", Jv.str e)])
    | none => dumps (Jv.obj [("error", Jv.str ("Unknown tool: " ++ tc.name))])
  let toolMsg := LMsg.tool result_content tc.id tc.name
  let st := push_history st "tool" result_content (some tc.name)
  let st := mutateLastHistory st (fun m =>
    { m with structured_response := some (structuredResponseOf loads result_content),
             tool_call_id := some tc.id })
  (st, toolMsg)

/-- Execute the model's tool calls sequentially in the order returned. -/
def execSubAgentToolCalls (loads : String → Option Jv)
    (tools : List (String × (Jv → Except String String)))
    (st : AssistantState) (tcs : List ToolCall) : AssistantState × List LMsg :=
  tcs.foldl (fun acc tc =>
    let (st, msg) := execSubAgentToolCall loads tools acc.1 tc
    (st, acc.2 ++ [msg])) (st, [])

/-- The supervisor's `while iterations < MAX_ITERATIONS` loop, on the fuel
`MAX_ITERATIONS - iterations`.  Returns the final state and the number of
model invocations performed. -/
def handle_master_loop (loads : String → Option Jv)
    (model : List LMsg → ModelResponse)
    (tools : List (String × (Jv → Except String String))) :
    Nat → List LMsg → AssistantState → AssistantState × Nat
  | 0, _, st =>
    ({ st with response := "I processed your request but reached the iteration limit." }, 0)
  | n + 1, messages, st =>
    let response := model messages
    if response.tool_calls.isEmpty then
      if response.content ≠ "" then ({ st with response := response.content }, 1)
      else ({ st with response := "I processed your request." }, 1)
    else
      let messages := messages ++ [LMsg.ai response.content response.tool_calls]
      let stMsgs := execSubAgentToolCalls loads tools st response.tool_calls
      let res := handle_master_loop loads model tools n (messages ++ stMsgs.2) stMsgs.1
      (res.1, res.2 + 1)

/-- Entry point of `handle_master`'s loop: `MAX_ITERATIONS = 20`. -/
def handle_master (loads : String → Option Jv)
    (model : List LMsg → ModelResponse)
    (tools : List (String × (Jv → Except String String)))
    (messages : List LMsg) (st : AssistantState) : AssistantState × Nat :=
  handle_master_loop loads model tools 20 messages st

/-- The mail agent's per-tool-call result (`execute_mail_agent` lines
161-180): call the tool on the MCP client (an exception becomes an
error-shaped result) and extract/normalize the content. -/
def mailToolResult (loads : String → Option Jv)
    (callTool : String → Jv → Except String CallToolResult)
    (tc : ToolCall) : String :=
  match callTool tc.name tc.args with
  | Except.ok result => mailExtractContent loads result
  | Except.error e => dumps (Jv.obj [("error", Jv.str e)])

/-- Embeds `execute_mail_agent`'s `while iterations < MAX_ITERATIONS` loop.
Returns the final text and the number of model invocations. -/
def execute_mail_agent_loop (loads : String → Option Jv)
    (model : List LMsg → ModelResponse)
    (callTool : String → Jv → Except String CallToolResult) :
    Nat → List LMsg → String × Nat
  | 0, _ => ("Mail operation completed but reached iteration limit.", 0)
  | n + 1, messages =>
    let response := model messages
    if response.tool_calls.isEmpty then
      if response.content ≠ "" then (response.content, 1) else ("Task completed.", 1)
    else
      let toolMsgs := response.tool_calls.map (fun tc =>
        LMsg.tool (mailToolResult loads callTool tc) tc.id tc.name)
      let res := execute_mail_agent_loop loads model callTool n
        (messages ++ [LMsg.ai response.content response.tool_calls] ++ toolMsgs)
      (res.1, res.2 + 1)

/-- Entry point of `execute_mail_agent`'s loop: `MAX_ITERATIONS = 10`. -/
def execute_mail_agent (loads : String → Option Jv)
    (model : List LMsg → ModelResponse)
    (callTool : String → Jv → Except String CallToolResult)
    (messages : List LMsg) : String × Nat :=
  execute_mail_agent_loop loads model callTool 10 messages

/-! ## Concrete instances used by witnesses and counterexamples -/

/-- A network where the mail server refuses connections and the other two
servers are healthy. -/
def netMailDown : String → ServerOutcome := fun key =>
  if key == "mail" then
    { connect := Except.error "All connection attempts failed", listTools := Except.ok 0 }
  else
    { connect := Except.ok (), listTools := Except.ok 7 }

/-- A `json.loads` outcome oracle for call sites whose text never parses. -/
def loadsNone : String → Option Jv := fun _ => none

/-- The JSON value a mail tool returns in the examples. -/
def jvUnread : Jv := Jv.obj [("unread", Jv.num 2)]

/-- Its `json.dumps` text, as carried in the result envelope. -/
def unreadText : String := dumps jvUnread

/-- An outcome oracle for `json.loads`: `unreadText` parses back to `jvUnread`. -/
def loadsUnread : String → Option Jv := fun s =>
  if s == unreadText then some jvUnread else none

/-- A result envelope whose first content item is the JSON text. -/
def resUnread : CallToolResult := { content := [ContentItem.textItem unreadText] }

/-- A result envelope carrying plain (non-JSON) text. -/
def resPlain : CallToolResult := { content := [ContentItem.textItem "3 unread emails"] }

/-- A model capability that always requests one sub-agent tool call. -/
def modelAlwaysDelegates : List LMsg → ModelResponse := fun _ =>
  { content := ""
    tool_calls := [{ name := "mail_agent_tool",
                     args := Jv.obj [("query", Jv.str "check my mail")],
                     id := "call_1" }] }

/-- A one-entry sub-agent catalog whose tool succeeds. -/
def subAgentToolsEx : List (String × (Jv → Except String String)) :=
  [("mail_agent_tool", fun _ => Except.ok "done")]

/-- A tool-call request for a name absent from `subAgentToolsEx`. -/
def tcDrive : ToolCall := { name := "drive_agent_tool", args := Jv.null, id := "c1" }

/-- An empty assistant state. -/
def st0 : AssistantState := {}

/-- A published eval event of category `"mail"`. -/
def evMail : EvalEvent := publish_eval_event "mail_agent" "q" "r" "mail" [] "t0"

/-- A published eval event of category `"router"`. -/
def evRouter : EvalEvent := publish_eval_event "router_agent" "q" "r" "router" [] "t0"

/-- A Gemini reply whose JSON did not parse. -/
def parsedFail : Except PyExc Jv := Except.error (PyExc.jsonDecode "Expecting value")

/-- A Gemini reply whose JSON parsed but whose status is outside
`{pass, fail}`. -/
def parsedExcellent : Except PyExc Jv :=
  Except.ok (Jv.obj [("status", Jv.str "excellent"),
                     ("justification", Jv.str "solid answer"),
                     ("improvements", Jv.str "none")])

/-- A placeholder result (never the value actually produced in witnesses). -/
def dummyEvalResult : EvalResult :=
  { test_name := "", category := "", status := Jv.null, score := Jv.null,
    execution_time_ms := 0, user_input := "", agent_output := "",
    justification := Jv.null, improvements := Jv.null, error_message := none,
    metadata := [] }

/-- The eval result the consumer produces for `evMail`/`parsedFail`. -/
def rExample : EvalResult :=
  (process_eval_event evMail parsedFail 5 7).getD dummyEvalResult

/-- Whether a Python value is a `str`. -/
def isStrJv : Jv → Bool
  | Jv.str _ => true
  | _ => false

/-- A state whose routed category normalizes to an unsupported value. -/
def stateWeather : AssistantState := { category_to_be_served := some " Weather " }

/-- A remote MCP client call that succeeds with a textual result. -/
def mailCallToolEx : String → Jv → Except String CallToolResult :=
  fun _ _ => Except.ok { content := [ContentItem.textItem "ok"] }

/-! # Theorems -/

/-! ## History cap (claim C1) -/

theorem length_lastN (n : Nat) (l : List α) : (lastN n l).length = min n l.length := by
  simp [lastN]
  omega

theorem lastN_of_length_le {n : Nat} {l : List α} (h : l.length ≤ n) : lastN n l = l := by
  simp [lastN, Nat.sub_eq_zero_of_le h]

/-- Lemma: `push_history` always yields the last-40 suffix of the extended history. -/
theorem push_history_eq_lastN (state : AssistantState) (role content : String)
    (name : Option String) :
    (push_history state role content name).history =
      lastN 40 (state.history ++ [{ role := role, content := content, name := name }]) := by
  unfold push_history
  dsimp only
  split
  · rfl
  · next h => exact (lastN_of_length_le (Nat.le_of_not_lt h)).symm

theorem lastN_append_left (n : Nat) (l l' : List α) :
    lastN n (lastN n l ++ l') = lastN n (l ++ l') := by
  unfold lastN
  rw [← List.drop_append_of_le_length (Nat.sub_le _ _)]
  rw [List.drop_drop]
  congr 1
  simp only [List.length_drop, List.length_append]
  omega

theorem pushAll_history_eq (appends : List Append) :
    appends ≠ [] → ∀ s : AssistantState,
      (pushAll s appends).history = lastN 40 (s.history ++ appends.map mkMsg) := by
  induction appends with
  | nil => intro h; cases h rfl
  | cons a rest ih =>
    intro _ s
    cases rest with
    | nil =>
      show (push_history s a.1 a.2.1 a.2.2).history = _
      rw [push_history_eq_lastN]
      rfl
    | cons b rest' =>
      have step : pushAll s (a :: b :: rest') = pushAll (push_history s a.1 a.2.1 a.2.2) (b :: rest') := rfl
      rw [step, ih (by simp) (push_history s a.1 a.2.1 a.2.2)]
      rw [show (push_history s a.1 a.2.1 a.2.2).history = lastN 40 (s.history ++ [mkMsg a]) from push_history_eq_lastN ..]
      rw [lastN_append_left]
      simp [mkMsg]

/-- C1: for every conversation state and every sequence of appends through
`push_history`, the history has length at most 40 after each append, and the
retained history is exactly the last-40 suffix of the appended messages in
their original chronological order (eviction drops only from the head,
oldest first). -/
theorem history_cap_and_recent_suffix (s : AssistantState)
    (appends : List Append) (last : Append) :
    (pushAll s (appends ++ [last])).history.length ≤ 40 ∧
    (pushAll s (appends ++ [last])).history =
      lastN 40 (s.history ++ (appends ++ [last]).map mkMsg) := by
  have h := pushAll_history_eq (appends ++ [last]) (by simp) s
  refine ⟨?_, h⟩
  rw [h, length_lastN]
  omega

/-! ## Connection pool (claims C2 and C8) -/

theorem foldl_tryConnectServer (net : String → ServerOutcome)
    (servers : List (String × String × String)) :
    ∀ c o e : List String,
      servers.foldl (tryConnectServer net) (c, o, e) =
        (c ++ connectedOf net servers, o ++ connectedOf net servers,
         e ++ collectedErrors net servers) := by
  induction servers with
  | nil => intro c o e; simp [connectedOf, collectedErrors]
  | cons s rest ih =>
    intro c o e
    obtain ⟨k, d, u⟩ := s
    simp only [List.foldl_cons]
    cases hc : (net k).connect with
    | error err =>
      have hstep : tryConnectServer net (c, o, e) (k, d, u) =
          (c, o, e ++ [serverErrorMsg d u err]) := by
        simp [tryConnectServer, hc]
      rw [hstep, ih]
      simp [connectedOf, collectedErrors, serverErrorOf, hc, List.filterMap_cons]
    | ok _ =>
      cases hl : (net k).listTools with
      | ok n =>
        have hstep : tryConnectServer net (c, o, e) (k, d, u) =
            (c ++ [k], o ++ [k], e) := by
          simp [tryConnectServer, hc, hl]
        rw [hstep, ih]
        simp [connectedOf, collectedErrors, serverErrorOf, hc, hl, List.filterMap_cons]
      | error err =>
        have hstep : tryConnectServer net (c, o, e) (k, d, u) =
            (c ++ [k], o ++ [k], e ++ [serverErrorMsg d u err]) := by
          simp [tryConnectServer, hc, hl]
        rw [hstep, ih]
        simp [connectedOf, collectedErrors, serverErrorOf, hc, hl, List.filterMap_cons]

theorem aenter_components (cfg : MCPConfig) (net : String → ServerOutcome) :
    (aenter cfg net).clients = connectedOf net (configuredServers cfg) ∧
    (aenter cfg net).opened = connectedOf net (configuredServers cfg) ∧
    (aenter cfg net).errors = collectedErrors net (configuredServers cfg) ∧
    (aenter cfg net).stack_closed = false ∧
    (aenter cfg net).result =
      (if (collectedErrors net (configuredServers cfg)).isEmpty then
        Except.ok (connectedOf net (configuredServers cfg))
      else
        Except.error ("Failed to connect to " ++
          toString (collectedErrors net (configuredServers cfg)).length ++
          " MCP server(s). All servers must be running.")) := by
  unfold aenter
  rw [foldl_tryConnectServer]
  simp

theorem serverErrorOf_isSome_iff (net : String → ServerOutcome)
    (s : String × String × String) :
    (serverErrorOf net s).isSome = true ↔ serverFails net s.1 = true := by
  obtain ⟨k, d, u⟩ := s
  unfold serverErrorOf serverFails exceptOk
  cases hc : (net k).connect with
  | error e => simp [hc]
  | ok _ =>
    cases hl : (net k).listTools with
    | ok _ => simp [hc, hl]
    | error e => simp [hc, hl]

theorem collectedErrors_ne_nil {net : String → ServerOutcome}
    {servers : List (String × String × String)}
    (h : ∃ s ∈ servers, serverFails net s.1 = true) :
    collectedErrors net servers ≠ [] := by
  obtain ⟨s, hs, hf⟩ := h
  obtain ⟨v, hv⟩ := Option.isSome_iff_exists.1 ((serverErrorOf_isSome_iff net s).2 hf)
  intro hnil
  have hmem : v ∈ servers.filterMap (serverErrorOf net) :=
    List.mem_filterMap.2 ⟨s, hs, hv⟩
  rw [show servers.filterMap (serverErrorOf net) = collectedErrors net servers from rfl,
      hnil] at hmem
  cases hmem

/-- C2: whenever at least one configured server is unreachable (its connect
or `list_tools` probe raises), `__aenter__` fails rather than returning a
pool — so no tool call can ever be routed through it — it attempts every
configured server instead of stopping at the first failure, and the
collected failure report it surfaces contains exactly one error line per
unreachable server (naming that server and its URL), for all of them. -/
theorem pool_open_all_or_nothing (cfg : MCPConfig) (net : String → ServerOutcome)
    (h : ∃ s ∈ configuredServers cfg, serverFails net s.1 = true) :
    (¬ ∃ pool, (aenter cfg net).result = Except.ok pool) ∧
    (aenter cfg net).errors = (configuredServers cfg).filterMap (serverErrorOf net) ∧
    (∀ s ∈ configuredServers cfg,
      ((serverErrorOf net s).isSome = true ↔ serverFails net s.1 = true)) := by
  obtain ⟨_, _, herr, _, hres⟩ := aenter_components cfg net
  have hne : collectedErrors net (configuredServers cfg) ≠ [] := collectedErrors_ne_nil h
  refine ⟨?_, herr, fun s _ => serverErrorOf_isSome_iff net s⟩
  rintro ⟨pool, hp⟩
  rw [hres, if_neg (by simpa [List.isEmpty_iff] using hne)] at hp
  cases hp

/-- Witness for C2: with the mail server down and the default configuration,
pool construction yields no pool. -/
theorem pool_open_all_or_nothing_witness :
    ¬ ∃ pool, (aenter {} netMailDown).result = Except.ok pool :=
  (pool_open_all_or_nothing {} netMailDown
    ⟨("mail", "Mail", "http://127.0.0.1:6281/mcp"), by decide, by decide⟩).1

/-- Counterexample for C8 as stated: with the mail server unreachable under
the default configuration, construction fails, yet the calendar and
expense-tracker connections opened during that same attempt remain open —
the exit stack is not closed before the error is surfaced. -/
theorem pool_failure_cleanup_cex :
    exceptOk (aenter {} netMailDown).result = false ∧
    (aenter {} netMailDown).opened = ["calendar", "expense_tracker"] ∧
    (aenter {} netMailDown).stack_closed = false :=
  ⟨rfl, rfl, rfl⟩

/-- C8 amended: when pool construction fails because some server is
unreachable, nothing is returned to the caller (no pool value exists), but
the connections already opened during that same attempt are not closed
before the error is surfaced: they stay on the still-open exit stack, which
only `__aexit__` closes — and Python runs `__aexit__` only after a
successful `__aenter__`. -/
theorem pool_failure_returns_nothing_leaves_open (cfg : MCPConfig)
    (net : String → ServerOutcome)
    (h : ∃ s ∈ configuredServers cfg, serverFails net s.1 = true) :
    (¬ ∃ pool, (aenter cfg net).result = Except.ok pool) ∧
    (aenter cfg net).opened = connectedOf net (configuredServers cfg) ∧
    (aenter cfg net).stack_closed = false ∧
    (aexit (aenter cfg net)).stack_closed = true := by
  obtain ⟨_, hop, _, hsc, hres⟩ := aenter_components cfg net
  refine ⟨?_, hop, hsc, rfl⟩
  rintro ⟨pool, hp⟩
  rw [hres, if_neg (by simpa [List.isEmpty_iff] using collectedErrors_ne_nil h)] at hp
  cases hp

/-- Witness for the amended C8: the failed default-configuration attempt
leaves its exit stack open. -/
theorem pool_failure_returns_nothing_leaves_open_witness :
    (aenter {} netMailDown).stack_closed = false :=
  (pool_failure_returns_nothing_leaves_open {} netMailDown
    ⟨("mail", "Mail", "http://127.0.0.1:6281/mcp"), by decide, by decide⟩).2.2.1

/-! ## Tool-result extraction (claim C9) -/

/-- Counterexample for C9 as stated: a textual tool result that parses as
JSON is returned by `MCPOrchestrator.call_tool` as the parsed JSON value,
not re-serialized back to text. -/
theorem call_tool_returns_parsed_value_cex :
    call_tool loadsUnread resUnread = Jv.obj [("unread", Jv.num 2)] ∧
    isStrJv (call_tool loadsUnread resUnread) = false :=
  ⟨rfl, rfl⟩

/-- C9 amended: `call_tool` extracts the first content item of the result
envelope; when it is textual and parses as JSON, the parsed JSON value
itself is returned to the caller (the re-serialization to normalized text
happens at the mail agent's call site, whose extraction returns
`json.dumps` of the parsed value); when the text does not parse as JSON,
the raw text is returned unchanged by both. -/
theorem call_tool_first_item_extraction (loads : String → Option Jv)
    (result : CallToolResult) (text : String) (rest : List ContentItem)
    (h : result.content = ContentItem.textItem text :: rest) :
    (∀ v, loads text = some v →
      call_tool loads result = v ∧ mailExtractContent loads result = dumps v) ∧
    (loads text = none →
      call_tool loads result = Jv.str text ∧ mailExtractContent loads result = text) := by
  constructor
  · intro v hv
    constructor
    · simp [call_tool, h, hv]
    · simp [mailExtractContent, h, hv]
  · intro hv
    constructor
    · simp [call_tool, h, hv]
    · simp [mailExtractContent, h, hv]

/-- Witness for the amended C9: plain non-JSON text is passed through
unchanged. -/
theorem call_tool_first_item_extraction_witness :
    call_tool loadsNone resPlain = Jv.str "3 unread emails" ∧
    mailExtractContent loadsNone resPlain = "3 unread emails" :=
  (call_tool_first_item_extraction loadsNone resPlain "3 unread emails" [] rfl).2 rfl

/-! ## Router closure (claim C3) -/

/-- Counterexample for C3 as stated: a parsed classifier output whose
`"category"` value `"weather"` lies outside the fixed category set is
returned verbatim by `route_category` instead of the sentinel `"none"`. -/
theorem route_category_cex :
    route_category (some [("category", Jv.str "weather")]) = Jv.str "weather" ∧
    isNoneSentinel (route_category (some [("category", Jv.str "weather")])) = false ∧
    CATEGORIES.contains "weather" = false :=
  ⟨rfl, rfl, by decide⟩

/-- C3 amended: `route_category` resolves to the sentinel `"none"` exactly
when `generate_json` fails to parse (returns `None`), returns an empty
object, or returns an object without a `"category"` key; when a
`"category"` key is present, its value is returned verbatim — even when it
is outside the fixed category set (such values are only rejected downstream
by the dispatch decider's safety net). -/
theorem route_category_fallback (genResult : Option (List (String × Jv))) :
    ((genResult = none ∨ genResult = some [] ∨
      (∀ d, genResult = some d → d.lookup "category" = none)) →
      route_category genResult = Jv.str "none") ∧
    (∀ d v, genResult = some d → d.lookup "category" = some v →
      route_category genResult = v) := by
  constructor
  · rintro (rfl | rfl | h)
    · rfl
    · rfl
    · cases genResult with
      | none => rfl
      | some d =>
        have hl := h d rfl
        simp [route_category, hl]
  · rintro d v rfl hl
    have hne : d.isEmpty = false := by
      cases d with
      | nil => simp [List.lookup] at hl
      | cons _ _ => rfl
    simp [route_category, hne, hl]

/-- Witness for the amended C3: a present `"category"` key is returned
verbatim. -/
theorem route_category_fallback_witness :
    route_category (some [("category", Jv.str "mail")]) = Jv.str "mail" :=
  (route_category_fallback (some [("category", Jv.str "mail")])).2
    [("category", Jv.str "mail")] (Jv.str "mail") rfl rfl

/-! ## Rewrite fallback (claim C6) -/

/-- C6: whenever the rewrite model call yields non-JSON (`generate_json`
returns `None`), an empty object, or a missing or blank `rewritten_query`
field, `rewrite_query` returns the original query stripped
(`user_query.strip()`); the function is total, so this fallback path never
raises. -/
theorem rewrite_query_fallback (user_query : String)
    (genResult : Option (List (String × Jv)))
    (h : genResult = none ∨ genResult = some [] ∨
      (∀ d, genResult = some d →
        d.lookup "rewritten_query" = none ∨
        (∃ s, d.lookup "rewritten_query" = some (Jv.str s) ∧ pyStrip s = ""))) :
    rewrite_query user_query genResult = pyStrip user_query := by
  rcases h with rfl | rfl | h
  · rfl
  · rfl
  · cases genResult with
    | none => rfl
    | some d =>
      rcases h d rfl with hl | ⟨s, hl, hs⟩
      · simp [rewrite_query, hl]
      · simp [rewrite_query, hl, hs]

/-- Witness for C6: the empty-object reply falls back to the stripped
original query. -/
theorem rewrite_query_fallback_witness :
    rewrite_query "hello" (some []) = pyStrip "hello" :=
  rewrite_query_fallback "hello" (some []) (Or.inr (Or.inl rfl))

/-! ## Dispatch safety net (claim C10) -/

/-- C10: the branch decider first normalizes the routed category with
`strip().lower()`; it dispatches to the supervisor exactly when the
normalized value is in `{mail, calendar, drive, expense_tracker}`, to the
resume subgraph exactly when it is in
`{resume_preparation, resume_prep, resume}`, and for every other string
whatsoever (not only `"none"`) it runs the rejection handler, which only
sets the response to the fixed capability-listing message — no agent node
is invoked. -/
theorem dispatch_safety_net (state : AssistantState) :
    (route_decider state = "master" ↔
      pyLower (pyStrip (state.category_to_be_served.getD "")) ∈
        (["mail", "calendar", "drive", "expense_tracker"] : List String)) ∧
    (route_decider state = "resume" ↔
      pyLower (pyStrip (state.category_to_be_served.getD "")) ∈
        (["resume_preparation", "resume_prep", "resume"] : List String)) ∧
    (pyLower (pyStrip (state.category_to_be_served.getD "")) ∉
        (["mail", "calendar", "drive", "expense_tracker"] : List String) →
      pyLower (pyStrip (state.category_to_be_served.getD "")) ∉
        (["resume_preparation", "resume_prep", "resume"] : List String) →
      dispatch_node state = GraphNode.noneHandler ∧
      no_category_handler state = { state with response := NO_CATEGORY_RESPONSE }) := by
  set c := pyLower (pyStrip (state.category_to_be_served.getD "")) with hc
  have hru : route_decider state =
      (if c ∈ (["mail", "calendar", "drive", "expense_tracker"] : List String) then "master"
       else if c ∈ (["resume_preparation", "resume_prep", "resume"] : List String) then "resume"
       else "none") := rfl
  have hdisj : ∀ x ∈ (["mail", "calendar", "drive", "expense_tracker"] : List String),
      x ∉ (["resume_preparation", "resume_prep", "resume"] : List String) := by decide
  by_cases hm : c ∈ (["mail", "calendar", "drive", "expense_tracker"] : List String)
  · have hr := hdisj c hm
    rw [hru, if_pos hm]
    refine ⟨by simp [hm], ⟨fun habs => absurd habs (by decide), fun hR => absurd hR hr⟩,
      fun h1 _ => absurd hm h1⟩
  · by_cases hr : c ∈ (["resume_preparation", "resume_prep", "resume"] : List String)
    · rw [hru, if_neg hm, if_pos hr]
      refine ⟨⟨fun habs => absurd habs (by decide), fun hM => absurd hM hm⟩,
        by simp [hr], fun _ h2 => absurd hr h2⟩
    · rw [hru, if_neg hm, if_neg hr]
      have hnone : route_decider state = "none" := by rw [hru, if_neg hm, if_neg hr]
      refine ⟨⟨fun habs => absurd habs (by decide), fun hM => absurd hM hm⟩,
        ⟨fun habs => absurd habs (by decide), fun hR => absurd hR hr⟩, fun _ _ => ⟨?_, rfl⟩⟩
      unfold dispatch_node
      rw [hnone]
      rfl

/-- Witness for C10: the category `" Weather "` normalizes to `"weather"`,
lands in no dispatch set, and reaches the rejection handler. -/
theorem dispatch_safety_net_witness :
    dispatch_node stateWeather = GraphNode.noneHandler ∧
    no_category_handler stateWeather =
      { stateWeather with response := NO_CATEGORY_RESPONSE } :=
  (dispatch_safety_net stateWeather).2.2 (by decide) (by decide)

/-! ## Eval event round-trip (claim C7) -/

theorem lookup_setKey_self (kvs : List (String × Jv)) (k : String) (v : Jv) :
    (setKey kvs k v).lookup k = some v := by
  induction kvs with
  | nil => simp [setKey, List.lookup]
  | cons kv rest ih =>
    obtain ⟨a, b⟩ := kv
    by_cases h : a = k
    · subst h
      simp [setKey, List.lookup]
    · have hb : (a == k) = false := beq_eq_false_iff_ne.2 h
      have hb' : (k == a) = false := beq_eq_false_iff_ne.2 (Ne.symm h)
      simp [setKey, hb, hb', List.lookup, ih]

theorem lookup_setKey_ne (kvs : List (String × Jv)) (k k' : String) (v : Jv)
    (h : k' ≠ k) : (setKey kvs k v).lookup k' = kvs.lookup k' := by
  induction kvs with
  | nil => simp [setKey, List.lookup, beq_eq_false_iff_ne.2 h]
  | cons kv rest ih =>
    obtain ⟨a, b⟩ := kv
    by_cases ha : a = k
    · subst ha
      have hk : (k' == a) = false := beq_eq_false_iff_ne.2 h
      simp [setKey, List.lookup, hk]
    · have hb : (a == k) = false := beq_eq_false_iff_ne.2 ha
      by_cases hk : k' = a
      · subst hk
        simp [setKey, hb, List.lookup]
      · have hk' : (k' == a) = false := beq_eq_false_iff_ne.2 hk
        simp [setKey, hb, List.lookup, hk', ih]

theorem statusIsPass_iff (v : Jv) : statusIsPass v = true ↔ v = Jv.str "pass" := by
  cases v <;> simp [statusIsPass]

theorem score_iff_status_pass (st : Jv) :
    (if statusIsPass st then Jv.num 1 else Jv.num 0) = Jv.num 1 ↔ st = Jv.str "pass" := by
  cases hp : statusIsPass st with
  | true =>
    have hps := (statusIsPass_iff st).1 hp
    simp [hp, hps]
  | false =>
    have hne : st ≠ Jv.str "pass" := by
      intro hh
      have ht := (statusIsPass_iff st).2 hh
      rw [hp] at ht
      cases ht
    simp [hp, hne]

/-- Whatever the scorer's backend produced, the evaluation dict always has a
status and a score, and the score is `1.0` exactly when the status is the
string `"pass"`. -/
theorem evaluate_status_score (parsed : Except PyExc Jv) :
    ∃ st sc, (evaluate parsed).lookup "status" = some st ∧
      (evaluate parsed).lookup "score" = some sc ∧
      (sc = Jv.num 1 ↔ st = Jv.str "pass") := by
  cases parsed with
  | error e =>
    cases e with
    | jsonDecode m => exact ⟨Jv.str "error", Jv.num 0, rfl, rfl, by simp⟩
    | otherExc m => exact ⟨Jv.str "error", Jv.num 0, rfl, rfl, by simp⟩
  | ok v =>
    cases v with
    | obj kvs =>
      cases hn1 : normalizeListField kvs "justification" " " with
      | error e =>
        refine ⟨Jv.str "error", Jv.num 0, ?_, ?_, by simp⟩
        · simp only [evaluate, hn1]; rfl
        · simp only [evaluate, hn1]; rfl
      | ok kvs1 =>
        cases hn2 : normalizeListField kvs1 "improvements" "\n" with
        | error e =>
          refine ⟨Jv.str "error", Jv.num 0, ?_, ?_, by simp⟩
          · simp only [evaluate, hn1, hn2]; rfl
          · simp only [evaluate, hn1, hn2]; rfl
        | ok kvs2 =>
          cases hst : kvs2.lookup "status" with
          | none =>
            refine ⟨Jv.str "error", Jv.num 0, ?_, ?_, by simp⟩
            · simp only [evaluate, hn1, hn2, hst]; rfl
            · simp only [evaluate, hn1, hn2, hst]; rfl
          | some st =>
            refine ⟨st, if statusIsPass st then Jv.num 1 else Jv.num 0, ?_, ?_,
              score_iff_status_pass st⟩
            · simp only [evaluate, hn1, hn2, hst]
              rw [lookup_setKey_ne kvs2 "score" "status" _ (by decide)]
              exact hst
            · simp only [evaluate, hn1, hn2, hst]
              exact lookup_setKey_self kvs2 "score" _
    | str s => exact ⟨Jv.str "error", Jv.num 0, rfl, rfl, by simp⟩
    | num n => exact ⟨Jv.str "error", Jv.num 0, rfl, rfl, by simp⟩
    | bool b => exact ⟨Jv.str "error", Jv.num 0, rfl, rfl, by simp⟩
    | null => exact ⟨Jv.str "error", Jv.num 0, rfl, rfl, by simp⟩
    | arr xs => exact ⟨Jv.str "error", Jv.num 0, rfl, rfl, by simp⟩

/-- Counterexample for C7 as stated: when the scorer's JSON parses but
carries status `"excellent"`, consumption yields an `EvalResult` whose
status lies outside `{pass, fail, error}` (the code never forces membership
in that set). -/
theorem eval_status_outside_set_cex :
    (process_eval_event evRouter parsedExcellent 0 0).map EvalResult.status =
      some (Jv.str "excellent") ∧
    (["pass", "fail", "error"] : List String).contains "excellent" = false :=
  ⟨rfl, by decide⟩

/-- C7 amended: every `EvalResult` the consumer produces carries the
published event's category unchanged and a score equal to `1.0` exactly
when its status is `"pass"` (`0.0` otherwise, including `"error"`); the
status is `"error"` on scorer parse failure or exception, but on parse
success it is taken verbatim from the model's JSON and is not forced into
`{pass, fail, error}`. -/
theorem eval_event_roundtrip (event : EvalEvent) (parsed : Except PyExc Jv)
    (now execTime : Int) (r : EvalResult)
    (h : process_eval_event event parsed now execTime = some r) :
    r.category = event.category ∧ (r.score = Jv.num 1 ↔ r.status = Jv.str "pass") := by
  obtain ⟨st, sc, hst, hsc, hiff⟩ := evaluate_status_score parsed
  unfold process_eval_event at h
  cases hj : (evaluate parsed).lookup "justification" with
  | none =>
    simp only [hst, hsc, hj] at h
    exact Option.noConfusion h
  | some j =>
    cases hi : (evaluate parsed).lookup "improvements" with
    | none =>
      simp only [hst, hsc, hj, hi] at h
      exact Option.noConfusion h
    | some i =>
      simp only [hst, hsc, hj, hi, Option.some.injEq] at h
      subst h
      exact ⟨rfl, hiff⟩

/-- Witness for the amended C7: a parse-failed scoring of a mail event. -/
theorem eval_event_roundtrip_witness :
    rExample.category = evMail.category ∧
    (rExample.score = Jv.num 1 ↔ rExample.status = Jv.str "pass") :=
  eval_event_roundtrip evMail parsedFail 5 7 rExample rfl

/-! ## Iteration termination (claim C4) -/

theorem handle_master_loop_always_delegates
    (loads : String → Option Jv) (model : List LMsg → ModelResponse)
    (tools : List (String × (Jv → Except String String)))
    (h : ∀ ms, (model ms).tool_calls ≠ []) :
    ∀ (fuel : Nat) (msgs : List LMsg) (st : AssistantState),
      (handle_master_loop loads model tools fuel msgs st).1.response =
        "I processed your request but reached the iteration limit." ∧
      (handle_master_loop loads model tools fuel msgs st).2 = fuel := by
  intro fuel
  induction fuel with
  | zero => intro msgs st; exact ⟨rfl, rfl⟩
  | succ n ih =>
    intro msgs st
    have hne : (model msgs).tool_calls.isEmpty = false := by
      cases hmc : (model msgs).tool_calls with
      | nil => exact absurd hmc (h msgs)
      | cons a l => rfl
    simp only [handle_master_loop, hne, Bool.false_eq_true, if_false]
    exact ⟨(ih _ _).1, by rw [(ih _ _).2]⟩

theorem execute_mail_agent_loop_always_delegates
    (loads : String → Option Jv) (model : List LMsg → ModelResponse)
    (callTool : String → Jv → Except String CallToolResult)
    (h : ∀ ms, (model ms).tool_calls ≠ []) :
    ∀ (fuel : Nat) (msgs : List LMsg),
      (execute_mail_agent_loop loads model callTool fuel msgs).1 =
        "Mail operation completed but reached iteration limit." ∧
      (execute_mail_agent_loop loads model callTool fuel msgs).2 = fuel := by
  intro fuel
  induction fuel with
  | zero => intro msgs; exact ⟨rfl, rfl⟩
  | succ n ih =>
    intro msgs
    have hne : (model msgs).tool_calls.isEmpty = false := by
      cases hmc : (model msgs).tool_calls with
      | nil => exact absurd hmc (h msgs)
      | cons a l => rfl
    simp only [execute_mail_agent_loop, hne, Bool.false_eq_true, if_false]
    exact ⟨(ih _).1, by rw [(ih _).2]⟩

/-- C4: against a model capability that always requests at least one tool
call, each invocation loop performs exactly its `MAX_ITERATIONS` model calls
— 20 for the supervisor (`handle_master`), 10 for the mail leaf agent
(`execute_mail_agent`) — and then returns its defined
iteration-limit-reached message as the final output. -/
theorem iteration_budget_termination
    (loads : String → Option Jv)
    (model mailModel : List LMsg → ModelResponse)
    (tools : List (String × (Jv → Except String String)))
    (callTool : String → Jv → Except String CallToolResult)
    (msgs mailMsgs : List LMsg) (st : AssistantState)
    (h : ∀ ms, (model ms).tool_calls ≠ [])
    (hmail : ∀ ms, (mailModel ms).tool_calls ≠ []) :
    (handle_master loads model tools msgs st).1.response =
      "I processed your request but reached the iteration limit." ∧
    (handle_master loads model tools msgs st).2 = 20 ∧
    (execute_mail_agent loads mailModel callTool mailMsgs).1 =
      "Mail operation completed but reached iteration limit." ∧
    (execute_mail_agent loads mailModel callTool mailMsgs).2 = 10 := by
  obtain ⟨h1, h2⟩ := handle_master_loop_always_delegates loads model tools h 20 msgs st
  obtain ⟨h3, h4⟩ := execute_mail_agent_loop_always_delegates loads mailModel callTool hmail 10 mailMsgs
  exact ⟨h1, h2, h3, h4⟩

/-- Witness for C4: a constant always-delegating model exhausts both
budgets. -/
theorem iteration_budget_termination_witness :
    (handle_master loadsNone modelAlwaysDelegates subAgentToolsEx [] st0).2 = 20 ∧
    (execute_mail_agent loadsNone modelAlwaysDelegates mailCallToolEx []).2 = 10 := by
  have t := iteration_budget_termination loadsNone modelAlwaysDelegates
    modelAlwaysDelegates subAgentToolsEx mailCallToolEx [] [] st0
    (fun ms => by simp [modelAlwaysDelegates])
    (fun ms => by simp [modelAlwaysDelegates])
  exact ⟨t.2.1, t.2.2.2⟩

/-! ## Loop error containment (claim C5) -/

/-- C5: inside the invocation loops a single tool-call failure never aborts
the loop: a requested tool name absent from the catalog synthesizes
`json.dumps` of `Python dict error: Unknown tool name` as the tool-result
message; a tool invocation that raises is caught and converted to an
error-shaped tool-result message; in both cases the supervisor loop
proceeds to the next model call (it recurses on the transcript extended by
the model turn and one tool-result message per call); the mail agent's loop
converts a raising remote call to the same error shape. -/
theorem tool_failure_containment :
    (∀ (loads : String → Option Jv)
       (tools : List (String × (Jv → Except String String)))
       (st : AssistantState) (tc : ToolCall),
      tools.lookup tc.name = none →
      (execSubAgentToolCall loads tools st tc).2 =
        LMsg.tool (dumps (Jv.obj [("error", Jv.str ("Unknown tool: " ++ tc.name))]))
          tc.id tc.name) ∧
    (∀ (loads : String → Option Jv)
       (tools : List (String × (Jv → Except String String)))
       (st : AssistantState) (tc : ToolCall) (f : Jv → Except String String)
       (e : String),
      tools.lookup tc.name = some f → f tc.args = Except.error e →
      (execSubAgentToolCall loads tools st tc).2 =
        LMsg.tool (dumps (Jv.obj [("error", Jv.str e)])) tc.id tc.name) ∧
    (∀ (loads : String → Option Jv) (model : List LMsg → ModelResponse)
       (tools : List (String × (Jv → Except String String)))
       (n : Nat) (msgs : List LMsg) (st : AssistantState),
      (model msgs).tool_calls.isEmpty = false →
      handle_master_loop loads model tools (n + 1) msgs st =
        (let response := model msgs
         let messages2 := msgs ++ [LMsg.ai response.content response.tool_calls]
         let stMsgs := execSubAgentToolCalls loads tools st response.tool_calls
         let res := handle_master_loop loads model tools n (messages2 ++ stMsgs.2) stMsgs.1
         (res.1, res.2 + 1))) ∧
    (∀ (loads : String → Option Jv)
       (callTool : String → Jv → Except String CallToolResult)
       (tc : ToolCall) (e : String),
      callTool tc.name tc.args = Except.error e →
      mailToolResult loads callTool tc = dumps (Jv.obj [("error", Jv.str e)])) := by
  refine ⟨?_, ?_, ?_, ?_⟩
  · intro loads tools st tc hl
    simp [execSubAgentToolCall, hl]
  · intro loads tools st tc f e hl he
    simp [execSubAgentToolCall, hl, he]
  · intro loads model tools n msgs st hne
    simp only [handle_master_loop, hne, Bool.false_eq_true, if_false]
  · intro loads callTool tc e hc
    simp [mailToolResult, hc]

/-- Witness for C5: a delegation to the unregistered `drive_agent_tool`
yields the synthesized unknown-tool error message. -/
theorem tool_failure_containment_witness :
    (execSubAgentToolCall loadsNone subAgentToolsEx st0 tcDrive).2 =
      LMsg.tool (dumps (Jv.obj [("error", Jv.str ("Unknown tool: " ++ tcDrive.name))]))
        tcDrive.id tcDrive.name :=
  tool_failure_containment.1 loadsNone subAgentToolsEx st0 tcDrive rfl

end Assistant
